import Mathlib

/-!
# Verification of the Frota-MMA expenses endpoint

Shallow embedding of the expense-tracker web API found in
`src/app/api/expenses/route.ts` (current revision) and the earlier
revisions of the same route (the aggregation revision with
`buildMonthSeries`, and the oldest listing-only revision).

Modelling conventions:
* JSON scalar values are modelled by `JsVal`; JavaScript `Number(·)`
  coercion of strings is modelled for plain decimal literals (optional
  sign, digits, at most one `.`), which is the input space of the
  numeric fields of this API.  Hex/exponent/`Infinity` literals are not
  modelled.  `NaN` is represented as `none : Option Rat`.
* Calendar dates are `DateYMD` records; the database's `date` column
  serialises as a canonical `YYYY-MM-DD` string, so a date with a
  four-digit year is in bijection with its string form, and string
  comparison agrees with the numeric key `DateYMD.val`.
* Calendar months are `MonthKey` records; `monthKey` (= `slice(0,7)` in
  the source) maps a date to its month.
* The hosted database is a list of `Rec` values; a storage failure is
  threaded through handlers as an explicit `Option String` error, which
  matches the source's `if (error) return errorResponse(error.message, 500)`.
* The `.order(...)` clauses that only sort the rows of a listing
  response are not modelled; no claim refers to response row order.
-/

namespace Frota

/-! ## JavaScript scalar values and Number() coercion -/

/-- A JSON/JS scalar value as it appears in a request body or query.
`undefined` stands for an absent body field. -/
inductive JsVal where
  | undefined : JsVal
  | null : JsVal
  | boolean : Bool → JsVal
  | num : Rat → JsVal
  | str : String → JsVal
deriving DecidableEq, Repr

/-- JS falsiness for the values representable as `JsVal`
(`undefined`, `null`, `false`, `0`, `""` are falsy). -/
def jsFalsy : JsVal → Bool
  | .undefined => true
  | .null => true
  | .boolean b => !b
  | .num q => q == 0
  | .str s => s == ""

/-- JS whitespace stripped by `Number()` before parsing. -/
def isJsSpace (c : Char) : Bool :=
  c == ' ' || c == '\t' || c == '\n' || c == '\r'

/-- Numeric value of a list of decimal digit characters. -/
def digitsVal (l : List Char) : Nat :=
  l.foldl (fun a c => a * 10 + (c.toNat - 48)) 0

/-- Splits a character list at the first `.` (integer part, fractional part). -/
def splitAtDot (l : List Char) : List Char × List Char :=
  let p := l.span (fun c => c != '.')
  match p.2 with
  | [] => (p.1, [])
  | _ :: rest => (p.1, rest)

/-- Model of JS `Number()` applied to a string, for plain decimal
literals: optional sign, digits, at most one decimal point, surrounding
whitespace allowed; the empty (or all-whitespace) string is `0`.
`none` represents `NaN`. -/
def jsStrToNumber (s : String) : Option Rat :=
  let cs := ((s.data.dropWhile isJsSpace).reverse.dropWhile isJsSpace).reverse
  match cs with
  | [] => some 0
  | _ =>
    let signed : Int × List Char :=
      match cs with
      | '-' :: r => (-1, r)
      | '+' :: r => (1, r)
      | _ => (1, cs)
    let ip := (splitAtDot signed.2).1
    let fp := (splitAtDot signed.2).2
    if ip.all Char.isDigit && fp.all Char.isDigit && !(ip.isEmpty && fp.isEmpty) then
      some (signed.1 * ((digitsVal ip * 10 ^ fp.length + digitsVal fp : Nat) : Rat) / ((10 : Rat) ^ fp.length))
    else
      none

/-- Model of `String.prototype.replace(",", ".")`: replaces only the FIRST comma. -/
def replaceFirstCommaAux : List Char → List Char
  | [] => []
  | ',' :: r => '.' :: r
  | c :: r => c :: replaceFirstCommaAux r

/-- Applies `String(x).replace(",", ".")` to a string input. -/
def replaceFirstComma (s : String) : String :=
  ⟨replaceFirstCommaAux s.data⟩

/-- Model of JS `Number()` on a `JsVal` (`Number(undefined) = NaN`,
`Number(null) = 0`, booleans coerce to 0/1). -/
def jsToNumber : JsVal → Option Rat
  | .undefined => none
  | .null => some 0
  | .boolean b => some (if b then 1 else 0)
  | .num q => some q
  | .str s => jsStrToNumber s

/-- Model of `String(x)` for the non-string scalars that can reach the
`Number(String(x).replace(",", "."))` coercion of `km`/`liters`
(the `undefined`/`null`/`""` cases are peeled off before it runs). -/
def jsValToString : JsVal → String
  | .undefined => "undefined"
  | .null => "null"
  | .boolean b => if b then "true" else "false"
  | .num _ => ""
  | .str s => s

/-! ## Calendar months and dates -/

/-- A calendar month, as named by a `YYYY-MM` month key.  `month` is
1-based; a key obtained from a canonical date string has
`1 ≤ month ≤ 12`. -/
structure MonthKey where
  year : Int
  month : Nat
deriving DecidableEq, Repr

/-- Linear index of a month (number of months since year 0). -/
def MonthKey.midx (k : MonthKey) : Int :=
  k.year * 12 + ((k.month : Int) - 1)

/-- The canonical month with the given linear index: this is how a UTC
`Date` at the start of a month decodes into `getUTCFullYear` /
`getUTCMonth + 1`, i.e. the pair rendered by `monthStrFromDateUtc`. -/
def monthOfIdx (t : Int) : MonthKey :=
  ⟨t / 12, (t % 12).toNat + 1⟩

/-- A calendar date, as carried by the `date` column (`YYYY-MM-DD`). -/
structure DateYMD where
  year : Int
  month : Nat
  day : Nat
deriving DecidableEq, Repr

/-- The `monthKey(dateString)` helper from the source: `slice(0, 7)` of a canonical
`YYYY-MM-DD` string keeps its year and month. -/
def monthKey (d : DateYMD) : MonthKey :=
  ⟨d.year, d.month⟩

/-- Order embedding for valid dates (`1 ≤ month ≤ 12`, `1 ≤ day ≤ 31`):
comparisons of `val` agree with the database's date ordering and with
lexicographic comparison of canonical date strings. -/
def DateYMD.val (d : DateYMD) : Int :=
  (d.year * 12 + ((d.month : Int) - 1)) * 32 + (d.day : Int)

/-- A date of the repository's data model: a valid calendar date whose
canonical string form has a four-digit year (so `slice`-based month keys
and `Date.UTC` round-trip exactly). -/
def validDate (d : DateYMD) : Prop :=
  1 ≤ d.month ∧ d.month ≤ 12 ∧ 1 ≤ d.day ∧ d.day ≤ 31 ∧
    1000 ≤ d.year ∧ d.year ≤ 9999

instance (d : DateYMD) : Decidable (validDate d) := by
  unfold validDate; infer_instance

/-- JS `ToIntegerOrInfinity`: truncation toward zero, as applied by
`Date.UTC` to each numeric argument. -/
def ratTrunc (q : Rat) : Int :=
  Int.tdiv q.num (q.den : Int)

/-- The JS `Date` quirk: a year argument in `0..99` is offset by 1900. -/
def utcYearAdjust (y : Int) : Int :=
  if 0 ≤ y ∧ y ≤ 99 then y + 1900 else y

/-- Model of `Date.UTC(year, monthIndex, 1)` for numeric (possibly fractional)
arguments: both are truncated, the year quirk is applied, and the month
index is normalised into the year (floor division, which `/` and `%` on
`Int` implement for the positive divisor 12).  Returns the calendar date
of the resulting instant (always the first day of a month here). -/
def dateUTCMonthStart (y mIdx : Rat) : DateYMD :=
  let t := utcYearAdjust (ratTrunc y) * 12 + ratTrunc mIdx
  ⟨t / 12, (t % 12).toNat + 1, 1⟩

/-- The `toMonthStartUtc(yyyyMm)` helper from the source: `Date.UTC(y, m - 1, 1)`
for an already-split month key, as a linear month index. -/
def toMonthStartUtc (k : MonthKey) : Int :=
  utcYearAdjust k.year * 12 + ((k.month : Int) - 1)

/-- Model of `month.split("-")`: split on every `-`, keeping empty segments
(JS string-separator split; no regex involved). -/
def jsSplitDashAux : List Char → List Char → List String
  | [], cur => [⟨cur.reverse⟩]
  | '-' :: rest, cur => ⟨cur.reverse⟩ :: jsSplitDashAux rest []
  | c :: rest, cur => jsSplitDashAux rest (c :: cur)

/-- Applies `split("-")` to a string. -/
def jsSplitDash (s : String) : List String :=
  jsSplitDashAux s.data []

/-- The `normalizeMonthRange(month)` function from the source: split on `-`, coerce
the first two pieces with `Number`, reject falsy/out-of-range values,
and build the UTC start date and exclusive end date. -/
def normalizeMonthRange (month : String) : Option (DateYMD × DateYMD) :=
  let parts := (jsSplitDash month).map jsStrToNumber
  match parts.get? 0, parts.get? 1 with
  | some (some y), some (some m) =>
    if y = 0 ∨ m = 0 ∨ m < 1 ∨ m > 12 then none
    else some (dateUTCMonthStart y (m - 1), dateUTCMonthStart y m)
  | _, _ => none

/-- The `isValidDate` check of the current `route.ts`: a string matching
`/^\d{4}-\d{2}-\d{2}$/`. -/
def isValidDate : JsVal → Bool
  | .str s =>
    match s.data with
    | [a, b, c, d, h1, e, f, h2, g, i] =>
      h1 == '-' && h2 == '-' && [a, b, c, d, e, f, g, i].all Char.isDigit
    | _ => false
  | _ => false

/-- The `addMonthsUtc` helper of the aggregation revision:
`Date.UTC(d.getUTCFullYear(), d.getUTCMonth() + months, 1)` on a
month-start date with linear index `t`.  The `Date.UTC` year quirk
applies to the date's own year. -/
def addMonthsUtcOld (t : Int) (months : Int) : Int :=
  utcYearAdjust (t / 12) * 12 + t % 12 + months

/-! ## Stored records and responses -/

/-- A stored row of the `expenses` table. -/
structure Rec where
  id : String
  fleet_code : String
  date : DateYMD
  truck_plate : String
  km : Rat
  category : String
  amount : Rat
  liters : Option Rat
  invoice_number : Option String
  note : Option String
  created_at : Nat
deriving DecidableEq, Repr

/-- One `{month, total}` point of the monthly series. -/
structure Point where
  month : MonthKey
  total : Rat
deriving DecidableEq, Repr

/-- The row inserted by `POST` (`insertPayload` in the source).  The raw
request values that the source passes through unconverted (`fleetCode`,
`date`, `truckPlate`, `category`, `amount`) stay `JsVal`. -/
structure InsertPayload where
  fleet_code : JsVal
  date : JsVal
  truck_plate : JsVal
  km : Rat
  category : JsVal
  amount : JsVal
  liters : Option Rat
  invoice_number : Option String
  note : Option String
deriving DecidableEq, Repr

/-- The column values written by `PUT` (`updatePayload` in the source:
everything but `id` and `fleet_code`). -/
structure UpdatePayload where
  date : JsVal
  truck_plate : JsVal
  km : Rat
  category : JsVal
  amount : JsVal
  liters : Option Rat
  invoice_number : Option String
  note : Option String
deriving DecidableEq, Repr

/-- Body of a JSON response of the endpoint. -/
inductive RespBody where
  /-- Body shape `error: message` plus extras. -/
  | err (message : String) : RespBody
  /-- Body shape `data: rows` (listing responses; the current
  `GET` also returns the walked `months` list). -/
  | rows (data : List Rec) (months : Option (List MonthKey)) : RespBody
  /-- Body shape `data: series, range` (the `group=month` responses). -/
  | series (data : List Point) (range : DateYMD × DateYMD) : RespBody
  /-- Body shape `data: insertedRow`. -/
  | inserted (p : InsertPayload) : RespBody
  /-- Body shape `data: updatedRow`. -/
  | updated (p : UpdatePayload) : RespBody
  /-- Body shape `ok: true`. -/
  | okTrue : RespBody
deriving DecidableEq, Repr

/-- A JSON response: HTTP status, body, and whether the body carries the
`sqlSetup` field (the SQL setup script constant). -/
structure ApiResp where
  status : Nat
  body : RespBody
  sqlSetup : Bool
deriving DecidableEq, Repr

/-- The `errorResponse(message, status = 400)` helper from the source. -/
def errorResponse (message : String) (status : Nat := 400) : ApiResp :=
  ⟨status, .err message, true⟩

/-! ## Monthly-series aggregation (the `group=month` revision) -/

/-- Loop body of `buildMonthSeries`: push the key of the current month,
stop after pushing `endMonth`, advance one month otherwise; the fuel is
the remaining iterations of the `for (let i = 0; i < 600; i++)` loop. -/
def seriesGo (endMonth : MonthKey) : Nat → Int → List MonthKey
  | 0, _ => []
  | fuel + 1, cur =>
    let key := monthOfIdx cur
    if key = endMonth then [key]
    else key :: seriesGo endMonth fuel (cur + 1)

/-- The `buildMonthSeries(startMonth, endMonth)` walk from the aggregation
revision: walk from `toMonthStartUtc(startMonth)`, at most 600 pushes,
breaking once the pushed key equals `endMonth`. -/
def buildMonthSeries (startMonth endMonth : MonthKey) : List MonthKey :=
  seriesGo endMonth 600 (toMonthStartUtc startMonth)

/-- The `while (cur.getTime() <= end.getTime())` month walk of the
current `route.ts` `GET` (no iteration cap; `addMonthsUtc` there uses
`setUTCMonth`, which adds one to the linear index). -/
def monthWalkGo (cur stop : Int) : List MonthKey :=
  if cur ≤ stop then monthOfIdx cur :: monthWalkGo (cur + 1) stop
  else []
termination_by (stop + 1 - cur).toNat
decreasing_by omega

/-- The full month walk of the current `route.ts` `GET`, from
`toMonthStartUtc(startMonth)` to `toMonthStartUtc(endMonth)`. -/
def monthWalk (startMonth endMonth : MonthKey) : List MonthKey :=
  monthWalkGo (toMonthStartUtc startMonth) (toMonthStartUtc endMonth)

/-- Date of the earliest row (`order("date", ascending).limit(1)`).
Ties are broken arbitrarily by the database; any choice has the same
`val`, hence the same month key. -/
def minDateOf (rows : List Rec) : Option DateYMD :=
  rows.foldl
    (fun acc r =>
      match acc with
      | none => some r.date
      | some d => if r.date.val < d.val then some r.date else some d)
    none

/-- Date of the latest row (`order("date", descending).limit(1)`). -/
def maxDateOf (rows : List Rec) : Option DateYMD :=
  rows.foldl
    (fun acc r =>
      match acc with
      | none => some r.date
      | some d => if d.val < r.date.val then some r.date else some d)
    none

/-- Value of `totalsMap.get(m) || 0` after the `forEach` reduction: the
sum of the amounts of the fetched rows whose month key is `m`
(amounts are database numerics, always finite, so the
`Number.isFinite` fallback to 0 never fires in the model). -/
def totalsGet (rows : List Rec) (m : MonthKey) : Rat :=
  rows.foldl (fun acc r => if monthKey r.date = m then acc + r.amount else acc) 0

/-- The `startDate` of the aggregation: the first day of the first month. -/
def firstDayOf (k : MonthKey) : DateYMD :=
  ⟨k.year, k.month, 1⟩

/-- The `endExclusive` bound of the aggregation:
`addMonthsUtc(toMonthStartUtc(lastMonth), 1).toISOString().slice(0, 10)`. -/
def endExclusiveOf (lastMonth : MonthKey) : DateYMD :=
  let t := addMonthsUtcOld (toMonthStartUtc lastMonth) 1
  ⟨(monthOfIdx t).year, (monthOfIdx t).month, 1⟩

/-- The `group=month` aggregation of the aggregation-revision `GET`,
applied to the already fleet/truck-scoped rows: min/max date queries,
month walk, ranged re-fetch, reduction to totals, gap-filled series.
`none` models the empty-fleet early return (`{ data: [] }`). -/
def groupMonthSeries (rows : List Rec) :
    Option (List Point × DateYMD × DateYMD) :=
  match minDateOf rows, maxDateOf rows with
  | some mn, some mx =>
    let firstMonth := monthKey mn
    let lastMonth := monthKey mx
    let months := buildMonthSeries firstMonth lastMonth
    let startDate := firstDayOf firstMonth
    let endExclusive := endExclusiveOf lastMonth
    let fetched := rows.filter
      (fun r => startDate.val ≤ r.date.val && r.date.val < endExclusive.val)
    let series := months.map (fun m => { month := m, total := totalsGet fetched m : Point })
    some (series, startDate, endExclusive)
  | _, _ => none

/-! ## Request handlers of the current `route.ts` -/

/-- The check `CATEGORY_VALUES.has(category)`: the set holds the two strings, so
membership requires a string equal to one of them. -/
def categoryOk (v : JsVal) : Bool :=
  v == .str "fuel" || v == .str "maintenance"

/-- The `km`/`liters` coercion
`x === undefined || x === null || x === "" ? null : Number(String(x).replace(",", "."))`:
`none` is the JS `null` branch, `some none` is `NaN`, `some (some q)` a
finite number. -/
def numFieldValue : JsVal → Option (Option Rat)
  | .undefined => none
  | .null => none
  | .str "" => none
  | .num q => some (some q)
  | v => some (jsStrToNumber (replaceFirstComma (jsValToString v)))

/-- The check `Number(amount) <= 0` — false for `NaN`, so a `NaN` amount passes
the check. -/
def amountRejected (amount : JsVal) : Bool :=
  match jsToNumber amount with
  | some q => q ≤ 0
  | none => false

/-- The coercion `invoiceNumber ? String(invoiceNumber).trim() : null` for the
string-or-absent bodies this model covers. -/
def invoiceValue (v : Option String) : Option String :=
  match v with
  | some s => if s = "" then none else some s.trim
  | none => none

/-- The coercion `note || null` for string-or-absent bodies. -/
def noteValue (v : Option String) : Option String :=
  match v with
  | some s => if s = "" then none else some s
  | none => none

/-- A `POST /expenses` body.  `invoiceNumber` and `note` are restricted
to string-or-absent (no claim depends on non-string values there). -/
structure PostBody where
  fleetCode : JsVal
  date : JsVal
  truckPlate : JsVal
  km : JsVal
  category : JsVal
  amount : JsVal
  liters : JsVal
  invoiceNumber : Option String
  note : Option String
deriving DecidableEq, Repr

/-- A `PUT /expenses` body: `id` plus the `POST` fields. -/
structure PutBody where
  id : JsVal
  fleetCode : JsVal
  date : JsVal
  truckPlate : JsVal
  km : JsVal
  category : JsVal
  amount : JsVal
  liters : JsVal
  invoiceNumber : Option String
  note : Option String
deriving DecidableEq, Repr

/-- The `POST` handler of the current `route.ts`.  `dbErr` models the insert call
failing (`if (error) return errorResponse(error.message, 500)`). -/
def postRoute (b : PostBody) (dbErr : Option String) : ApiResp :=
  if jsFalsy b.fleetCode then errorResponse "fleetCode é obrigatório"
  else if !isValidDate b.date then errorResponse "date inválida"
  else if jsFalsy b.truckPlate then errorResponse "truck_plate é obrigatório"
  else
    match numFieldValue b.km with
    | some (some kmValue) =>
      if kmValue < 0 then errorResponse "km deve ser um número maior ou igual a zero"
      else if !categoryOk b.category then errorResponse "category inválida"
      else if amountRejected b.amount then errorResponse "amount deve ser maior que zero"
      else
        match numFieldValue b.liters with
        | some none => errorResponse "liters deve ser maior que zero"
        | some (some q) =>
          if q ≤ 0 then errorResponse "liters deve ser maior que zero"
          else
            match dbErr with
            | some m => errorResponse m 500
            | none =>
              ⟨201, .inserted
                { fleet_code := b.fleetCode, date := b.date,
                  truck_plate := b.truckPlate, km := kmValue,
                  category := b.category, amount := b.amount,
                  liters := if b.category == .str "fuel" then some q else none,
                  invoice_number := invoiceValue b.invoiceNumber,
                  note := noteValue b.note }, true⟩
        | none =>
          match dbErr with
          | some m => errorResponse m 500
          | none =>
            ⟨201, .inserted
              { fleet_code := b.fleetCode, date := b.date,
                truck_plate := b.truckPlate, km := kmValue,
                category := b.category, amount := b.amount,
                liters := none,
                invoice_number := invoiceValue b.invoiceNumber,
                note := noteValue b.note }, true⟩
    | _ => errorResponse "km deve ser um número maior ou igual a zero"

/-- The `PUT` handler of the current `route.ts`: the same checks preceded by the
`id` check; the update is scoped to `id` + `fleet_code` and `.single()`
surfaces a zero-row match as a storage error (`dbErr`). -/
def putRoute (b : PutBody) (dbErr : Option String) : ApiResp :=
  if jsFalsy b.id then errorResponse "id é obrigatório"
  else if jsFalsy b.fleetCode then errorResponse "fleetCode é obrigatório"
  else if !isValidDate b.date then errorResponse "date inválida"
  else if jsFalsy b.truckPlate then errorResponse "truck_plate é obrigatório"
  else
    match numFieldValue b.km with
    | some (some kmValue) =>
      if kmValue < 0 then errorResponse "km deve ser um número maior ou igual a zero"
      else if !categoryOk b.category then errorResponse "category inválida"
      else if amountRejected b.amount then errorResponse "amount deve ser maior que zero"
      else
        match numFieldValue b.liters with
        | some none => errorResponse "liters deve ser maior que zero"
        | some (some q) =>
          if q ≤ 0 then errorResponse "liters deve ser maior que zero"
          else
            match dbErr with
            | some m => errorResponse m 500
            | none =>
              ⟨200, .updated
                { date := b.date, truck_plate := b.truckPlate, km := kmValue,
                  category := b.category, amount := b.amount,
                  liters := if b.category == .str "fuel" then some q else none,
                  invoice_number := invoiceValue b.invoiceNumber,
                  note := noteValue b.note }, true⟩
        | none =>
          match dbErr with
          | some m => errorResponse m 500
          | none =>
            ⟨200, .updated
              { date := b.date, truck_plate := b.truckPlate, km := kmValue,
                category := b.category, amount := b.amount,
                liters := none,
                invoice_number := invoiceValue b.invoiceNumber,
                note := noteValue b.note }, true⟩
    | _ => errorResponse "km deve ser um número maior ou igual a zero"

/-- The `DELETE` handler of the current `route.ts`: validate `id` and `fleetCode`,
then delete the rows matching both (`eq("id", id).eq("fleet_code", fleetCode)`),
returning the new store and `{ ok: true }`.  The body fields are taken
as strings (the id is a uuid string); `!x` is the `= ""` test there. -/
def deleteRoute (db : List Rec) (id fleetCode : String) (dbErr : Option String) :
    List Rec × ApiResp :=
  if id = "" then (db, errorResponse "id é obrigatório")
  else if fleetCode = "" then (db, errorResponse "fleetCode é obrigatório")
  else
    match dbErr with
    | some m => (db, errorResponse m 500)
    | none =>
      (db.filter (fun r => !(r.id == id && r.fleet_code == fleetCode)),
        ⟨200, .okTrue, true⟩)

/-- A query-string parameter (`searchParams.get` yields `null` when the
parameter is missing); `!p` is true for `null` and `""`. -/
def paramFalsy : Option String → Bool
  | none => true
  | some s => s == ""

/-- The truck filter is applied when `truck && truck !== "Todos"`. -/
def truckActive : Option String → Bool
  | none => false
  | some s => !(s == "") && !(s == "Todos")

/-- The `GET` handler of the current `route.ts`: the month range is computed but
only applied when `mode === "MONTH"` and the range parsed; an invalid
`month` never produces an error.  The three queries run over the same
filters; the walked `months` list accompanies the data.  Row ordering
(`date` desc, `created_at` desc) is not modelled.  -/
def routeGet (db : List Rec) (fleetCode month mode : Option String)
    (dbErr : Option String) : ApiResp :=
  if paramFalsy fleetCode then errorResponse "fleetCode é obrigatório"
  else
    let fc := fleetCode.getD ""
    let modeV := match mode with | none => "ALL" | some s => if s = "" then "ALL" else s
    let monthRange := match month with
      | none => none
      | some ms => if ms = "" then none else normalizeMonthRange ms
    let base := db.filter (fun r => r.fleet_code == fc)
    let scopedRows := match monthRange with
      | some rg =>
        if modeV = "MONTH" then
          base.filter (fun r => rg.1.val ≤ r.date.val && r.date.val < rg.2.val)
        else base
      | none => base
    match dbErr with
    | some m => errorResponse m 500
    | none =>
      match minDateOf scopedRows, maxDateOf scopedRows with
      | some mn, some mx =>
        ⟨200, .rows scopedRows (some (monthWalk (monthKey mn) (monthKey mx))), true⟩
      | _, _ => ⟨200, .rows [] none, true⟩

/-- The `GET` handler of the aggregation revision (the file defining
`buildMonthSeries`): with `group=month` it returns the gap-filled
monthly series over the fleet's (optionally truck-scoped) rows;
otherwise it is a listing in which an invalid `month` parameter is
rejected with a validation error.  Row ordering is not modelled. -/
def oldGet (db : List Rec) (fleetCode group truck month : Option String)
    (dbErr : Option String) : ApiResp :=
  if paramFalsy fleetCode then errorResponse "fleetCode é obrigatório"
  else
    let fc := fleetCode.getD ""
    let base := db.filter (fun r => r.fleet_code == fc)
    let scopedRows :=
      if truckActive truck then base.filter (fun r => r.truck_plate == truck.getD "")
      else base
    if group = some "month" then
      match dbErr with
      | some m => errorResponse m 500
      | none =>
        match groupMonthSeries scopedRows with
        | some (series, startDate, endExclusive) =>
          ⟨200, .series series (startDate, endExclusive), true⟩
        | none => ⟨200, .rows [] none, true⟩
    else
      match month with
      | some ms =>
        if ms = "" then
          match dbErr with
          | some m => errorResponse m 500
          | none => ⟨200, .rows scopedRows none, true⟩
        else
          match normalizeMonthRange ms with
          | none => errorResponse "month inválido. Use YYYY-MM"
          | some rg =>
            match dbErr with
            | some m => errorResponse m 500
            | none =>
              ⟨200, .rows
                (scopedRows.filter
                  (fun r => rg.1.val ≤ r.date.val && r.date.val < rg.2.val))
                none, true⟩
      | none =>
        match dbErr with
        | some m => errorResponse m 500
        | none => ⟨200, .rows scopedRows none, true⟩

/-! ## Spec-side definition for the amount-coercion comparison -/

/-- Modelled from the spec: the numeric coercion the spec prescribes for
`amount`, "accepting either `.` or `,` as decimal separator" — i.e. the
same coercion the source applies to `km` and `liters`, but which the
source does NOT apply to `amount` (the source uses plain `Number(amount)`). -/
def specNumericCoerce (s : String) : Option Rat :=
  jsStrToNumber (replaceFirstComma s)

/-! ## Concrete data used by witnesses and counterexamples -/

/-- The spec's worked example: records dated `2024-01-15` (amount 100)
and `2024-03-10` (amount 50) for one fleet and truck. -/
def exRows : List Rec :=
  [{ id := "a1", fleet_code := "F1", date := ⟨2024, 1, 15⟩,
     truck_plate := "AAA-111", km := 0, category := "fuel", amount := 100,
     liters := some 50, invoice_number := none, note := none, created_at := 1 },
   { id := "a2", fleet_code := "F1", date := ⟨2024, 3, 10⟩,
     truck_plate := "AAA-111", km := 0, category := "maintenance", amount := 50,
     liters := none, invoice_number := none, note := none, created_at := 2 }]

/-- Two records 1488 months apart (beyond the 600-iteration cap). -/
def cexRows : List Rec :=
  [{ id := "b1", fleet_code := "F1", date := ⟨1900, 1, 15⟩,
     truck_plate := "AAA-111", km := 0, category := "fuel", amount := 100,
     liters := some 50, invoice_number := none, note := none, created_at := 1 },
   { id := "b2", fleet_code := "F1", date := ⟨2024, 1, 10⟩,
     truck_plate := "AAA-111", km := 0, category := "maintenance", amount := 50,
     liters := none, invoice_number := none, note := none, created_at := 2 }]

/-- The series points the aggregation produces for `cexRows`. -/
def cexSeries : List Point :=
  ((groupMonthSeries cexRows).map Prod.fst).getD []

/-- A fully valid `POST` body (fuel, dot-decimal amount). -/
def baseBody : PostBody :=
  { fleetCode := .str "F1", date := .str "2024-05-10",
    truckPlate := .str "AAA-111", km := .num 50, category := .str "fuel",
    amount := .num 10, liters := .num 30, invoiceNumber := none, note := none }

/-- A fully valid `PUT` body. -/
def basePut : PutBody :=
  { id := .str "r1", fleetCode := .str "F1", date := .str "2024-05-10",
    truckPlate := .str "AAA-111", km := .num 50, category := .str "fuel",
    amount := .num 10, liters := .num 30, invoiceNumber := none, note := none }

/-- A one-record store owned by fleet `A` (for the cross-tenant DELETE). -/
def c3db : List Rec :=
  [{ id := "r1", fleet_code := "A", date := ⟨2024, 5, 10⟩,
     truck_plate := "AAA-111", km := 0, category := "fuel", amount := 10,
     liters := none, invoice_number := none, note := none, created_at := 1 }]

/-- A maintenance `POST` whose `amount` is the comma-decimal `"-10,5"`. -/
def cex5 : PostBody :=
  { baseBody with
    category := .str "maintenance", liters := .undefined,
    amount := .str "-10,5" }

/-- A valid body with `amount = 0`. -/
def w5 : PostBody := { baseBody with amount := .num 0 }

/-- A valid `PUT` body with `amount = 0`. -/
def w5p : PutBody := { basePut with amount := .num 0 }

/-- A maintenance `POST` carrying an invalid (negative) `liters`. -/
def cex8 : PostBody :=
  { baseBody with category := .str "maintenance", liters := .num (-1) }

/-- A maintenance `POST` carrying a valid `liters` value. -/
def w8 : PostBody :=
  { baseBody with category := .str "maintenance", liters := .num 5 }

/-- A valid body except that `km` is absent. -/
def cex9 : PostBody := { baseBody with km := .undefined }

/-- A valid body except that `km` is negative. -/
def w9 : PostBody := { baseBody with km := .num (-3) }

/-- A valid `PUT` body except that `km` is negative. -/
def w9p : PutBody := { basePut with km := .num (-3) }

/-! ## Month-index lemmas -/

/-- A month key as rendered from a database date with a four-digit year:
in-range month and year, so that string-level equality and `Date.UTC`
round-trips agree with the structural model. -/
def canonMonth (k : MonthKey) : Prop :=
  1 ≤ k.month ∧ k.month ≤ 12 ∧ 1000 ≤ k.year ∧ k.year ≤ 9999

theorem midx_monthOfIdx (t : Int) : (monthOfIdx t).midx = t := by
  simp only [monthOfIdx, MonthKey.midx]
  omega

theorem monthOfIdx_midx (k : MonthKey) (h1 : 1 ≤ k.month) (h2 : k.month ≤ 12) :
    monthOfIdx k.midx = k := by
  cases k with
  | mk y m =>
    simp only [monthOfIdx, MonthKey.midx, MonthKey.mk.injEq] at *
    omega

theorem monthOfIdx_inj {s t : Int} (h : monthOfIdx s = monthOfIdx t) : s = t := by
  have := congrArg MonthKey.midx h
  simpa [midx_monthOfIdx] using this

theorem monthOfIdx_month_bounds (t : Int) :
    1 ≤ (monthOfIdx t).month ∧ (monthOfIdx t).month ≤ 12 := by
  simp only [monthOfIdx]
  omega

theorem toMonthStartUtc_eq_midx (k : MonthKey) (h : 100 ≤ k.year) :
    toMonthStartUtc k = k.midx := by
  simp only [toMonthStartUtc, utcYearAdjust, MonthKey.midx]
  omega

theorem canonMonth_of_validDate (d : DateYMD) (h : validDate d) :
    canonMonth (monthKey d) := by
  obtain ⟨h1, h2, _, _, h5, h6⟩ := h
  exact ⟨h1, h2, h5, h6⟩

theorem midx_mono_of_val_le {d e : DateYMD}
    (hd : validDate d) (he : validDate e) (h : d.val ≤ e.val) :
    (monthKey d).midx ≤ (monthKey e).midx := by
  obtain ⟨hd1, hd2, hd3, hd4, -, -⟩ := hd
  obtain ⟨he1, he2, he3, he4, -, -⟩ := he
  simp only [DateYMD.val, monthKey, MonthKey.midx] at *
  omega

/-! ## `buildMonthSeries` lemmas -/

theorem rangeMap_succ (s : Int) (n : Nat) :
    (List.range (n + 1)).map (fun i : Nat => monthOfIdx (s + (i : Int))) =
      monthOfIdx s ::
        (List.range n).map (fun i : Nat => monthOfIdx ((s + 1) + (i : Int))) := by
  rw [List.range_succ_eq_map]
  simp only [List.map_cons, List.map_map, Nat.cast_zero, add_zero]
  congr 1
  apply List.map_congr_left
  intro i _
  simp only [Function.comp_apply]
  congr 1
  push_cast
  ring

theorem seriesGo_complete (e : MonthKey) (he1 : 1 ≤ e.month) (he2 : e.month ≤ 12) :
    ∀ (fuel : Nat) (s : Int), s ≤ e.midx → (e.midx - s).toNat < fuel →
      seriesGo e fuel s =
        (List.range ((e.midx - s).toNat + 1)).map (fun i : Nat => monthOfIdx (s + (i : Int))) := by
  intro fuel
  induction fuel with
  | zero => intro s _ h; omega
  | succ fuel ih =>
    intro s hs hlt
    by_cases hk : monthOfIdx s = e
    · have hse : s = e.midx := by
        have := congrArg MonthKey.midx hk
        simpa [midx_monthOfIdx] using this
      have h0 : (e.midx - s).toNat = 0 := by omega
      simp [seriesGo, hk, h0, List.range_succ]
    · have hslt : s < e.midx := by
        rcases lt_or_eq_of_le hs with h | h
        · exact h
        · exact absurd (h ▸ monthOfIdx_midx e he1 he2) hk
      have hrec := ih (s + 1) (by omega) (by omega)
      have hn : (e.midx - s).toNat = ((e.midx - (s + 1)).toNat + 1) := by omega
      simp only [seriesGo]
      rw [if_neg hk, hn, rangeMap_succ, ← hrec]

theorem seriesGo_truncated (e : MonthKey) :
    ∀ (fuel : Nat) (s : Int), (∀ i : Nat, i < fuel → monthOfIdx (s + (i : Int)) ≠ e) →
      seriesGo e fuel s = (List.range fuel).map (fun i : Nat => monthOfIdx (s + (i : Int))) := by
  intro fuel
  induction fuel with
  | zero => intro s _; simp [seriesGo]
  | succ fuel ih =>
    intro s hne
    have h0 : monthOfIdx s ≠ e := by
      have := hne 0 (by omega)
      simpa using this
    have hrec := ih (s + 1) (by
      intro i hi
      have := hne (i + 1) (by omega)
      have harg : s + ((i : Int) + 1) = s + 1 + (i : Int) := by ring
      simpa [harg] using this)
    simp only [seriesGo]
    rw [if_neg h0, rangeMap_succ, ← hrec]

theorem seriesGo_length_le (e : MonthKey) :
    ∀ (fuel : Nat) (s : Int), (seriesGo e fuel s).length ≤ fuel := by
  intro fuel
  induction fuel with
  | zero => intro s; simp [seriesGo]
  | succ fuel ih =>
    intro s
    simp only [seriesGo]
    split
    · simp
    · simpa using Nat.succ_le_succ (ih (s + 1))

/-! ## Month-range list lemmas -/

theorem rangeMap_length (s : Int) (n : Nat) :
    (((List.range n).map (fun i : Nat => monthOfIdx (s + (i : Int)))).length) = n := by
  simp

theorem rangeMap_nodup (s : Int) (n : Nat) :
    ((List.range n).map (fun i : Nat => monthOfIdx (s + (i : Int)))).Nodup := by
  refine List.Nodup.map ?_ (List.nodup_range n)
  intro i j hij
  have := monthOfIdx_inj hij
  omega

theorem rangeMap_mem (s : Int) (n : Nat) (k : MonthKey) :
    k ∈ (List.range n).map (fun i : Nat => monthOfIdx (s + (i : Int))) ↔
      1 ≤ k.month ∧ k.month ≤ 12 ∧ s ≤ k.midx ∧ k.midx < s + n := by
  simp only [List.mem_map, List.mem_range]
  constructor
  · rintro ⟨i, hi, rfl⟩
    have hb := monthOfIdx_month_bounds (s + i)
    have hm := midx_monthOfIdx (s + i)
    exact ⟨hb.1, hb.2, by omega, by omega⟩
  · rintro ⟨h1, h2, h3, h4⟩
    refine ⟨(k.midx - s).toNat, by omega, ?_⟩
    have : s + ((k.midx - s).toNat : Int) = k.midx := by omega
    rw [this]
    exact monthOfIdx_midx k h1 h2

theorem rangeMap_chain (s : Int) (n : Nat) :
    List.Chain' (fun a b : MonthKey => a.midx + 1 = b.midx)
      ((List.range n).map (fun i : Nat => monthOfIdx (s + (i : Int)))) := by
  rw [List.chain'_map]
  cases n with
  | zero => simp
  | succ n =>
    rw [List.chain'_range_succ]
    intro m _
    simp only [midx_monthOfIdx]
    push_cast
    ring

/-! ## Month-walk (uncapped `while` loop) lemmas -/

theorem monthWalkGo_length (cur stop : Int) :
    (monthWalkGo cur stop).length = (stop + 1 - cur).toNat := by
  rw [monthWalkGo]
  split
  · rw [List.length_cons, monthWalkGo_length (cur + 1) stop]
    omega
  · simp
    omega
termination_by (stop + 1 - cur).toNat
decreasing_by omega

/-! ## Min/max date query lemmas -/

theorem minFold_some (l : List Rec) :
    ∀ d : DateYMD, ∃ d',
      l.foldl
        (fun acc r =>
          match acc with
          | none => some r.date
          | some d0 => if r.date.val < d0.val then some r.date else some d0)
        (some d) = some d' ∧
      (d' = d ∨ ∃ r ∈ l, r.date = d') ∧ d'.val ≤ d.val ∧
      ∀ r ∈ l, d'.val ≤ r.date.val := by
  induction l with
  | nil => intro d; exact ⟨d, rfl, Or.inl rfl, le_refl _, by simp⟩
  | cons r l ih =>
    intro d
    by_cases h : r.date.val < d.val
    · obtain ⟨d', hfold, horig, hle, hbound⟩ := ih r.date
      refine ⟨d', ?_, ?_, by omega, ?_⟩
      · simpa [h] using hfold
      · rcases horig with h' | ⟨r', hr', h'⟩
        · exact Or.inr ⟨r, by simp, h'.symm ▸ rfl⟩
        · exact Or.inr ⟨r', by simp [hr'], h'⟩
      · intro r' hr'
        rcases List.mem_cons.mp hr' with h' | h'
        · subst h'; omega
        · exact hbound r' h'
    · obtain ⟨d', hfold, horig, hle, hbound⟩ := ih d
      refine ⟨d', ?_, ?_, hle, ?_⟩
      · simpa [h] using hfold
      · rcases horig with h' | ⟨r', hr', h'⟩
        · exact Or.inl h'
        · exact Or.inr ⟨r', by simp [hr'], h'⟩
      · intro r' hr'
        rcases List.mem_cons.mp hr' with h' | h'
        · subst h'; omega
        · exact hbound r' h'

theorem minDateOf_spec (rows : List Rec) (d : DateYMD)
    (h : minDateOf rows = some d) :
    (∃ r ∈ rows, r.date = d) ∧ ∀ r ∈ rows, d.val ≤ r.date.val := by
  cases rows with
  | nil => simp [minDateOf] at h
  | cons r l =>
    obtain ⟨d', hfold, horig, hle, hbound⟩ := minFold_some l r.date
    rw [minDateOf, List.foldl_cons] at h
    have h' : d' = d := by
      rw [hfold] at h
      exact Option.some.inj h
    subst h'
    constructor
    · rcases horig with h' | ⟨r', hr', h'⟩
      · exact ⟨r, by simp, h'.symm⟩
      · exact ⟨r', by simp [hr'], h'⟩
    · intro r' hr'
      rcases List.mem_cons.mp hr' with h' | h'
      · subst h'; omega
      · exact hbound r' h'

theorem minDateOf_isSome (rows : List Rec) (h : rows ≠ []) :
    ∃ d, minDateOf rows = some d := by
  cases rows with
  | nil => exact absurd rfl h
  | cons r l =>
    obtain ⟨d', hfold, -, -, -⟩ := minFold_some l r.date
    exact ⟨d', by rw [minDateOf, List.foldl_cons]; exact hfold⟩

theorem maxFold_some (l : List Rec) :
    ∀ d : DateYMD, ∃ d',
      l.foldl
        (fun acc r =>
          match acc with
          | none => some r.date
          | some d0 => if d0.val < r.date.val then some r.date else some d0)
        (some d) = some d' ∧
      (d' = d ∨ ∃ r ∈ l, r.date = d') ∧ d.val ≤ d'.val ∧
      ∀ r ∈ l, r.date.val ≤ d'.val := by
  induction l with
  | nil => intro d; exact ⟨d, rfl, Or.inl rfl, le_refl _, by simp⟩
  | cons r l ih =>
    intro d
    by_cases h : d.val < r.date.val
    · obtain ⟨d', hfold, horig, hle, hbound⟩ := ih r.date
      refine ⟨d', ?_, ?_, by omega, ?_⟩
      · simpa [h] using hfold
      · rcases horig with h' | ⟨r', hr', h'⟩
        · exact Or.inr ⟨r, by simp, h'.symm ▸ rfl⟩
        · exact Or.inr ⟨r', by simp [hr'], h'⟩
      · intro r' hr'
        rcases List.mem_cons.mp hr' with h' | h'
        · subst h'; omega
        · exact hbound r' h'
    · obtain ⟨d', hfold, horig, hle, hbound⟩ := ih d
      refine ⟨d', ?_, ?_, hle, ?_⟩
      · simpa [h] using hfold
      · rcases horig with h' | ⟨r', hr', h'⟩
        · exact Or.inl h'
        · exact Or.inr ⟨r', by simp [hr'], h'⟩
      · intro r' hr'
        rcases List.mem_cons.mp hr' with h' | h'
        · subst h'; omega
        · exact hbound r' h'

theorem maxDateOf_spec (rows : List Rec) (d : DateYMD)
    (h : maxDateOf rows = some d) :
    (∃ r ∈ rows, r.date = d) ∧ ∀ r ∈ rows, r.date.val ≤ d.val := by
  cases rows with
  | nil => simp [maxDateOf] at h
  | cons r l =>
    obtain ⟨d', hfold, horig, hle, hbound⟩ := maxFold_some l r.date
    rw [maxDateOf, List.foldl_cons] at h
    have h' : d' = d := by
      rw [hfold] at h
      exact Option.some.inj h
    subst h'
    constructor
    · rcases horig with h' | ⟨r', hr', h'⟩
      · exact ⟨r, by simp, h'.symm⟩
      · exact ⟨r', by simp [hr'], h'⟩
    · intro r' hr'
      rcases List.mem_cons.mp hr' with h' | h'
      · subst h'; omega
      · exact hbound r' h'

theorem maxDateOf_isSome (rows : List Rec) (h : rows ≠ []) :
    ∃ d, maxDateOf rows = some d := by
  cases rows with
  | nil => exact absurd rfl h
  | cons r l =>
    obtain ⟨d', hfold, -, -, -⟩ := maxFold_some l r.date
    exact ⟨d', by rw [maxDateOf, List.foldl_cons]; exact hfold⟩

/-! ## Totals-map lemmas -/

theorem totalsFold_init (m : MonthKey) (rows : List Rec) :
    ∀ c : Rat,
      rows.foldl (fun acc r => if monthKey r.date = m then acc + r.amount else acc) c =
        c + rows.foldl (fun acc r => if monthKey r.date = m then acc + r.amount else acc) 0 := by
  induction rows with
  | nil => intro c; simp
  | cons r rows ih =>
    intro c
    simp only [List.foldl_cons]
    by_cases h : monthKey r.date = m
    · simp only [if_pos h]
      rw [ih (c + r.amount), ih (0 + r.amount)]
      ring
    · simp only [if_neg h]
      exact ih c

theorem totalsGet_cons (r : Rec) (rows : List Rec) (m : MonthKey) :
    totalsGet (r :: rows) m =
      (if monthKey r.date = m then r.amount else 0) + totalsGet rows m := by
  rw [totalsGet, List.foldl_cons, totalsFold_init]
  by_cases h : monthKey r.date = m
  · simp only [if_pos h, zero_add]
    rfl
  · simp only [if_neg h, zero_add]
    rfl

theorem map_sum_add (l : List MonthKey) (f g : MonthKey → Rat) :
    (l.map (fun m => f m + g m)).sum = (l.map f).sum + (l.map g).sum := by
  induction l with
  | nil => simp
  | cons m l ih =>
    simp only [List.map_cons, List.sum_cons, ih]
    ring

theorem sum_ite_count (months : List MonthKey) (k : MonthKey) (a : Rat) :
    (months.map (fun m => if k = m then a else 0)).sum =
      ((months.count k : Nat) : Rat) * a := by
  induction months with
  | nil => simp
  | cons m months ih =>
    simp only [List.map_cons, List.sum_cons, ih, List.count_cons]
    by_cases h : k = m
    · have : m == k := by simp [h.symm]
      simp only [if_pos h, this, if_true]
      push_cast
      ring
    · have : ¬ (m == k) := by simpa using fun h' => h h'.symm
      simp only [if_neg h, this, if_false]
      push_cast
      ring

/-- The reduction step 4-5 of the aggregation, summed over the series:
each record contributes its amount once per occurrence of its month key
in the months list. -/
theorem series_total_sum (months : List MonthKey) (rows : List Rec) :
    (months.map (fun m => totalsGet rows m)).sum =
      (rows.map (fun r => ((months.count (monthKey r.date) : Nat) : Rat) * r.amount)).sum := by
  induction rows with
  | nil =>
    simp only [totalsGet, List.foldl_nil, List.map_nil, List.sum_nil]
    induction months with
    | nil => simp
    | cons m months ih => simp_all
  | cons r rows ih =>
    have hmap :
        months.map (fun m => totalsGet (r :: rows) m) =
          months.map (fun m =>
            (if monthKey r.date = m then r.amount else 0) + totalsGet rows m) := by
      apply List.map_congr_left
      intro m _
      rw [totalsGet_cons]
    rw [hmap, map_sum_add, sum_ite_count, ih]
    simp only [List.map_cons, List.sum_cons]

/-! ## Characterisation of the aggregation -/

theorem firstDayOf_val (k : MonthKey) : (firstDayOf k).val = k.midx * 32 + 1 := by
  simp only [firstDayOf, DateYMD.val, MonthKey.midx]
  norm_num

theorem endExclusiveOf_val (k : MonthKey)
    (h1 : 1 ≤ k.month) (h2 : k.month ≤ 12) (hy : 100 ≤ k.year) :
    (endExclusiveOf k).val = (k.midx + 1) * 32 + 1 := by
  simp only [endExclusiveOf, addMonthsUtcOld, toMonthStartUtc, utcYearAdjust,
    monthOfIdx, DateYMD.val, MonthKey.midx]
  omega

/-- Under the hypotheses of the data model (a non-empty scoped row set
with valid four-digit-year dates whose month span fits under the 600
cap), the aggregation returns the complete range-and-totals series. -/
theorem groupMonthSeries_eq (rows : List Rec) (mn mx : DateYMD)
    (hmn : minDateOf rows = some mn) (hmx : maxDateOf rows = some mx)
    (hv : ∀ r ∈ rows, validDate r.date)
    (hspan : (monthKey mx).midx - (monthKey mn).midx < 600) :
    groupMonthSeries rows =
      some
        (((List.range (((monthKey mx).midx - (monthKey mn).midx).toNat + 1)).map
            (fun i : Nat => monthOfIdx ((monthKey mn).midx + (i : Int)))).map
          (fun m => { month := m, total := totalsGet rows m : Point }),
          firstDayOf (monthKey mn), endExclusiveOf (monthKey mx)) := by
  obtain ⟨⟨rmin, hrmin, hrmineq⟩, hminle⟩ := minDateOf_spec rows mn hmn
  obtain ⟨⟨rmax, hrmax, hrmaxeq⟩, hmaxle⟩ := maxDateOf_spec rows mx hmx
  have hvmn : validDate mn := hrmineq ▸ hv rmin hrmin
  have hvmx : validDate mx := hrmaxeq ▸ hv rmax hrmax
  have hvalle : mn.val ≤ mx.val := hrmaxeq ▸ hminle rmax hrmax
  have hmidxle : (monthKey mn).midx ≤ (monthKey mx).midx :=
    midx_mono_of_val_le hvmn hvmx hvalle
  have hcmn := canonMonth_of_validDate mn hvmn
  have hcmx := canonMonth_of_validDate mx hvmx
  have hbuild : buildMonthSeries (monthKey mn) (monthKey mx) =
      (List.range (((monthKey mx).midx - (monthKey mn).midx).toNat + 1)).map
        (fun i : Nat => monthOfIdx ((monthKey mn).midx + (i : Int))) := by
    rw [buildMonthSeries, toMonthStartUtc_eq_midx _
      (by have := hcmn.2.2.1; omega : 100 ≤ (monthKey mn).year)]
    exact seriesGo_complete (monthKey mx) hcmx.1 hcmx.2.1 600 (monthKey mn).midx
      hmidxle (by omega)
  have hfilter : rows.filter
      (fun r => (firstDayOf (monthKey mn)).val ≤ r.date.val
        && r.date.val < (endExclusiveOf (monthKey mx)).val) = rows := by
    apply List.filter_eq_self.mpr
    intro r hr
    obtain ⟨h1, h2, h3, h4, h5, h6⟩ := hv r hr
    have hlow : mn.val ≤ r.date.val := hminle r hr
    have hhigh : r.date.val ≤ mx.val := hmaxle r hr
    have hs := firstDayOf_val (monthKey mn)
    have he := endExclusiveOf_val (monthKey mx) hcmx.1 hcmx.2.1
      (by have := hcmx.2.2.1; omega)
    have hmnval : mn.val = (monthKey mn).midx * 32 + (mn.day : Int) := by
      simp only [DateYMD.val, monthKey, MonthKey.midx]
    have hmxval : mx.val = (monthKey mx).midx * 32 + (mx.day : Int) := by
      simp only [DateYMD.val, monthKey, MonthKey.midx]
    obtain ⟨-, -, hd3, hd4, -, -⟩ := hvmn
    obtain ⟨-, -, he3, he4, -, -⟩ := hvmx
    simp only [Bool.and_eq_true, decide_eq_true_eq]
    omega
  rw [groupMonthSeries, hmn, hmx]
  simp only [hbuild, hfilter]

theorem groupMonthSeries_months (rows : List Rec) (mn mx : DateYMD)
    (hmn : minDateOf rows = some mn) (hmx : maxDateOf rows = some mx)
    (hv : ∀ r ∈ rows, validDate r.date)
    (hspan : (monthKey mx).midx - (monthKey mn).midx < 600) :
    ∃ pts rg, groupMonthSeries rows = some (pts, rg) ∧
      pts.map Point.month =
        (List.range (((monthKey mx).midx - (monthKey mn).midx).toNat + 1)).map
          (fun i : Nat => monthOfIdx ((monthKey mn).midx + (i : Int))) ∧
      pts.map Point.total =
        ((List.range (((monthKey mx).midx - (monthKey mn).midx).toNat + 1)).map
          (fun i : Nat => monthOfIdx ((monthKey mn).midx + (i : Int)))).map
          (fun m => totalsGet rows m) := by
  refine ⟨_, _, groupMonthSeries_eq rows mn mx hmn hmx hv hspan, ?_, ?_⟩
  · rw [List.map_map]
    simp [Function.comp]
  · rw [List.map_map]
    simp [Function.comp]

/-! ## The aggregation on the capped counterexample -/

/-- On `cexRows` (span 1488 months) the 600-iteration cap truncates the
walk: the series covers only the 600 months starting at `1900-01`. -/
theorem cex_groupMonthSeries :
    groupMonthSeries cexRows =
      some
        (((List.range 600).map (fun i : Nat => monthOfIdx ((22800 : Int) + (i : Int)))).map
          (fun m => { month := m, total := totalsGet cexRows m : Point }),
          firstDayOf ⟨1900, 1⟩, endExclusiveOf ⟨2024, 1⟩) := by
  have hmn : minDateOf cexRows = some ⟨1900, 1, 15⟩ := by decide
  have hmx : maxDateOf cexRows = some ⟨2024, 1, 10⟩ := by decide
  have hne : ∀ i : Nat, i < 600 →
      monthOfIdx ((22800 : Int) + (i : Int)) ≠ (⟨2024, 1⟩ : MonthKey) := by
    intro i hi h
    have h2 := congrArg MonthKey.midx h
    rw [midx_monthOfIdx] at h2
    simp only [MonthKey.midx] at h2
    omega
  have hstart : toMonthStartUtc ⟨1900, 1⟩ = 22800 := by decide
  have hbuild : buildMonthSeries ⟨1900, 1⟩ ⟨2024, 1⟩ =
      (List.range 600).map (fun i : Nat => monthOfIdx ((22800 : Int) + (i : Int))) := by
    rw [buildMonthSeries, hstart]
    exact seriesGo_truncated _ 600 22800 hne
  have hfilter : cexRows.filter
      (fun r => (firstDayOf ⟨1900, 1⟩).val ≤ r.date.val
        && r.date.val < (endExclusiveOf ⟨2024, 1⟩).val) = cexRows := by decide
  rw [groupMonthSeries, hmn, hmx]
  simp only [monthKey]
  rw [hbuild, hfilter]

/-- C1, counterexample: for `cexRows` the month of the latest record,
`2024-01`, has no point in the produced series (the cap truncated the
walk), refuting "exactly one point for each calendar month from the
earliest to the latest record month". -/
theorem claim_C1_counterexample :
    cexRows ≠ [] ∧ (∀ r ∈ cexRows, validDate r.date) ∧
    maxDateOf cexRows = some ⟨2024, 1, 10⟩ ∧
    ∃ pts rg, groupMonthSeries cexRows = some (pts, rg) ∧
      (⟨2024, 1⟩ : MonthKey) ∉ pts.map Point.month := by
  refine ⟨by decide, by decide, by decide, _, _, cex_groupMonthSeries, ?_⟩
  rw [List.map_map]
  have : (Point.month ∘ fun m => { month := m, total := totalsGet cexRows m : Point }) =
      fun m : MonthKey => m := rfl
  rw [this, List.map_id']
  rw [rangeMap_mem]
  simp only [MonthKey.midx]
  omega

/-- C1 (amended): for a non-empty set of valid expense records whose
span from the earliest to the latest record month stays under the
600-iteration cap, the `group=month` series has exactly one point per
calendar month from the earliest to the latest month (no gaps, no
duplicates), in ascending consecutive-month order. -/
theorem claim_C1_series_complete (rows : List Rec) (mn mx : DateYMD)
    (hmn : minDateOf rows = some mn) (hmx : maxDateOf rows = some mx)
    (hv : ∀ r ∈ rows, validDate r.date)
    (hspan : (monthKey mx).midx - (monthKey mn).midx < 600) :
    ∃ pts rg, groupMonthSeries rows = some (pts, rg) ∧
      (pts.map Point.month).length =
        (((monthKey mx).midx - (monthKey mn).midx).toNat + 1) ∧
      (pts.map Point.month).Nodup ∧
      List.Chain' (fun a b : MonthKey => a.midx + 1 = b.midx) (pts.map Point.month) ∧
      (∀ k : MonthKey, k ∈ pts.map Point.month ↔
        1 ≤ k.month ∧ k.month ≤ 12 ∧
          (monthKey mn).midx ≤ k.midx ∧ k.midx ≤ (monthKey mx).midx) := by
  obtain ⟨⟨rmin, hrmin, hrmineq⟩, hminle⟩ := minDateOf_spec rows mn hmn
  obtain ⟨⟨rmax, hrmax, hrmaxeq⟩, hmaxle⟩ := maxDateOf_spec rows mx hmx
  have hvmn : validDate mn := hrmineq ▸ hv rmin hrmin
  have hvmx : validDate mx := hrmaxeq ▸ hv rmax hrmax
  have hmidxle : (monthKey mn).midx ≤ (monthKey mx).midx :=
    midx_mono_of_val_le hvmn hvmx (hrmaxeq ▸ hminle rmax hrmax)
  obtain ⟨pts, rg, heq, hmonths, -⟩ :=
    groupMonthSeries_months rows mn mx hmn hmx hv hspan
  refine ⟨pts, rg, heq, ?_, ?_, ?_, ?_⟩
  · rw [hmonths]
    simp
  · rw [hmonths]
    exact rangeMap_nodup _ _
  · rw [hmonths]
    exact rangeMap_chain _ _
  · intro k
    rw [hmonths, rangeMap_mem]
    constructor
    · rintro ⟨h1, h2, h3, h4⟩
      exact ⟨h1, h2, h3, by omega⟩
    · rintro ⟨h1, h2, h3, h4⟩
      exact ⟨h1, h2, h3, by omega⟩

/-- Witness for C1 on the spec's worked example (months `2024-01` to
`2024-03`). -/
theorem claim_C1_witness :
    (minDateOf exRows = some ⟨2024, 1, 15⟩ ∧ maxDateOf exRows = some ⟨2024, 3, 10⟩ ∧
      (∀ r ∈ exRows, validDate r.date) ∧
      (monthKey (⟨2024, 3, 10⟩ : DateYMD)).midx -
        (monthKey (⟨2024, 1, 15⟩ : DateYMD)).midx < 600) ∧
    (∃ pts rg, groupMonthSeries exRows = some (pts, rg) ∧
      (pts.map Point.month).length =
        (((monthKey (⟨2024, 3, 10⟩ : DateYMD)).midx -
          (monthKey (⟨2024, 1, 15⟩ : DateYMD)).midx).toNat + 1) ∧
      (pts.map Point.month).Nodup ∧
      List.Chain' (fun a b : MonthKey => a.midx + 1 = b.midx) (pts.map Point.month) ∧
      (∀ k : MonthKey, k ∈ pts.map Point.month ↔
        1 ≤ k.month ∧ k.month ≤ 12 ∧
          (monthKey (⟨2024, 1, 15⟩ : DateYMD)).midx ≤ k.midx ∧
          k.midx ≤ (monthKey (⟨2024, 3, 10⟩ : DateYMD)).midx)) :=
  ⟨⟨by decide, by decide, by decide, by decide⟩,
    claim_C1_series_complete exRows ⟨2024, 1, 15⟩ ⟨2024, 3, 10⟩
      (by decide) (by decide) (by decide) (by decide)⟩

/-- C2 (amended): under the same 600-month-span cap, the sum of the
series totals equals the sum of the record amounts (conservation). -/
theorem claim_C2_series_conserves (rows : List Rec) (mn mx : DateYMD)
    (hmn : minDateOf rows = some mn) (hmx : maxDateOf rows = some mx)
    (hv : ∀ r ∈ rows, validDate r.date)
    (hspan : (monthKey mx).midx - (monthKey mn).midx < 600) :
    ∃ pts rg, groupMonthSeries rows = some (pts, rg) ∧
      (pts.map Point.total).sum = (rows.map Rec.amount).sum := by
  obtain ⟨⟨rmin, hrmin, hrmineq⟩, hminle⟩ := minDateOf_spec rows mn hmn
  obtain ⟨⟨rmax, hrmax, hrmaxeq⟩, hmaxle⟩ := maxDateOf_spec rows mx hmx
  have hvmn : validDate mn := hrmineq ▸ hv rmin hrmin
  have hvmx : validDate mx := hrmaxeq ▸ hv rmax hrmax
  obtain ⟨pts, rg, heq, -, htotals⟩ :=
    groupMonthSeries_months rows mn mx hmn hmx hv hspan
  refine ⟨pts, rg, heq, ?_⟩
  rw [htotals, series_total_sum]
  apply congrArg List.sum
  apply List.map_congr_left
  intro r hr
  have hcount :
      ((List.range (((monthKey mx).midx - (monthKey mn).midx).toNat + 1)).map
        (fun i : Nat => monthOfIdx ((monthKey mn).midx + (i : Int)))).count
        (monthKey r.date) = 1 := by
    apply List.count_eq_one_of_mem (rangeMap_nodup _ _)
    rw [rangeMap_mem]
    obtain ⟨h1, h2, -, -, -, -⟩ := hv r hr
    have hlow := midx_mono_of_val_le hvmn (hv r hr) (hminle r hr)
    have hhigh := midx_mono_of_val_le (hv r hr) hvmx (hmaxle r hr)
    exact ⟨h1, h2, hlow, by omega⟩
  rw [hcount]
  norm_num

/-- Witness for C2 on the spec's worked example. -/
theorem claim_C2_witness :
    (minDateOf exRows = some ⟨2024, 1, 15⟩ ∧ maxDateOf exRows = some ⟨2024, 3, 10⟩ ∧
      (∀ r ∈ exRows, validDate r.date) ∧
      (monthKey (⟨2024, 3, 10⟩ : DateYMD)).midx -
        (monthKey (⟨2024, 1, 15⟩ : DateYMD)).midx < 600) ∧
    (∃ pts rg, groupMonthSeries exRows = some (pts, rg) ∧
      (pts.map Point.total).sum = (exRows.map Rec.amount).sum) :=
  ⟨⟨by decide, by decide, by decide, by decide⟩,
    claim_C2_series_conserves exRows ⟨2024, 1, 15⟩ ⟨2024, 3, 10⟩
      (by decide) (by decide) (by decide) (by decide)⟩

/-- C2, counterexample: on `cexRows` the series sums to 100 while the
input amounts sum to 150 — the record beyond the 600-month cap is lost,
refuting unconditional conservation. -/
theorem claim_C2_counterexample :
    ∃ pts rg, groupMonthSeries cexRows = some (pts, rg) ∧
      (pts.map Point.total).sum = 100 ∧ (cexRows.map Rec.amount).sum = 150 ∧
      (pts.map Point.total).sum ≠ (cexRows.map Rec.amount).sum := by
  have hc1 : ((List.range 600).map
      (fun i : Nat => monthOfIdx ((22800 : Int) + (i : Int)))).count
        (monthKey (⟨1900, 1, 15⟩ : DateYMD)) = 1 := by
    apply List.count_eq_one_of_mem (rangeMap_nodup _ _)
    rw [rangeMap_mem]
    refine ⟨by norm_num [monthKey], by norm_num [monthKey], ?_, ?_⟩ <;>
      simp [monthKey, MonthKey.midx]
  have hc2 : ((List.range 600).map
      (fun i : Nat => monthOfIdx ((22800 : Int) + (i : Int)))).count
        (monthKey (⟨2024, 1, 10⟩ : DateYMD)) = 0 := by
    apply List.count_eq_zero_of_not_mem
    rw [rangeMap_mem]
    simp [monthKey, MonthKey.midx]
  have hsum : ((((List.range 600).map
      (fun i : Nat => monthOfIdx ((22800 : Int) + (i : Int)))).map
        (fun m => { month := m, total := totalsGet cexRows m : Point })).map
          Point.total).sum = 100 := by
    rw [List.map_map]
    have hcomp : (Point.total ∘
        fun m => { month := m, total := totalsGet cexRows m : Point }) =
      fun m => totalsGet cexRows m := rfl
    rw [hcomp, series_total_sum]
    simp only [cexRows, List.map_cons, List.map_nil, List.sum_cons, List.sum_nil]
    rw [hc1, hc2]
    norm_num
  have hamounts : (cexRows.map Rec.amount).sum = 150 := by
    simp only [cexRows, List.map_cons, List.map_nil, List.sum_cons, List.sum_nil]
    norm_num
  refine ⟨_, _, cex_groupMonthSeries, hsum, hamounts, ?_⟩
  rw [hsum, hamounts]
  norm_num

/-- C4 (amended): `buildMonthSeries` (the aggregation's month walk) is
capped at 600 iterations — its output never exceeds 600 entries for any
pair of input month keys; but the month walk of the current `route.ts`
`GET` is an uncapped `while` loop (see the counterexample). -/
theorem claim_C4_walk_capped (startMonth endMonth : MonthKey) :
    (buildMonthSeries startMonth endMonth).length ≤ 600 := by
  rw [buildMonthSeries]
  exact seriesGo_length_le endMonth 600 (toMonthStartUtc startMonth)

/-- C4, counterexample: the current `route.ts` month walk runs 1489
iterations for the month keys `1900-01` and `2024-01` — it is not capped
at 600 steps. -/
theorem claim_C4_counterexample :
    (monthWalk ⟨1900, 1⟩ ⟨2024, 1⟩).length = 1489 ∧
      600 < (monthWalk ⟨1900, 1⟩ ⟨2024, 1⟩).length := by
  have h : (monthWalk ⟨1900, 1⟩ ⟨2024, 1⟩).length = 1489 := by
    rw [monthWalk, monthWalkGo_length]
    decide
  exact ⟨h, by rw [h]; norm_num⟩

/-! ## Month-range normalisation (C6) -/

theorem ratTrunc_eq_floor (q : Rat) (h : 0 ≤ q) : ratTrunc q = ⌊q⌋ := by
  rw [ratTrunc, Rat.floor_def]
  exact Int.tdiv_eq_ediv (Rat.num_nonneg.mpr h) (Int.ofNat_nonneg q.den)

theorem dateUTCMonthStart_day (y mIdx : Rat) : (dateUTCMonthStart y mIdx).day = 1 :=
  rfl

theorem monthKey_dateUTCMonthStart (y mIdx : Rat) :
    (monthKey (dateUTCMonthStart y mIdx)).midx =
      utcYearAdjust (ratTrunc y) * 12 + ratTrunc mIdx := by
  simp only [dateUTCMonthStart, monthKey, MonthKey.midx]
  omega

/-- C6: for every valid `YYYY-MM` input (first two `-`-separated pieces
coercing to a non-zero year and a month in 1–12), `normalizeMonthRange`
returns a start date with day-of-month 1 and an exclusive end date
exactly one calendar month after the start (the first day of the next
month). -/
theorem claim_C6_month_range (s : String) (y m : Rat)
    (hy : ((jsSplitDash s).map jsStrToNumber).get? 0 = some (some y))
    (hm : ((jsSplitDash s).map jsStrToNumber).get? 1 = some (some m))
    (hy0 : y ≠ 0) (hm1 : 1 ≤ m) (hm12 : m ≤ 12) :
    ∃ st en, normalizeMonthRange s = some (st, en) ∧
      st.day = 1 ∧ en.day = 1 ∧ (monthKey en).midx = (monthKey st).midx + 1 := by
  have hguard : ¬ (y = 0 ∨ m = 0 ∨ m < 1 ∨ m > 12) := by
    push_neg
    exact ⟨hy0, by intro h; rw [h] at hm1; norm_num at hm1, by linarith, by linarith⟩
  rw [normalizeMonthRange]
  simp only [hy, hm]
  rw [if_neg hguard]
  refine ⟨_, _, rfl, dateUTCMonthStart_day _ _, dateUTCMonthStart_day _ _, ?_⟩
  rw [monthKey_dateUTCMonthStart, monthKey_dateUTCMonthStart]
  have htr : ratTrunc (m - 1) = ratTrunc m - 1 := by
    rw [ratTrunc_eq_floor (m - 1) (by linarith), ratTrunc_eq_floor m (by linarith)]
    exact Int.floor_sub_one m
  omega

/-! ## Cross-tenant DELETE (C3) -/

/-- C3: a `DELETE` whose `fleetCode` does not match the stored
`fleet_code` of any record with the given `id` leaves the store
unchanged, and its response is the very response produced against a
store in which the `id` does not exist at all — no cross-tenant leakage
of existence. -/
theorem claim_C3_delete_cross_tenant (db : List Rec) (id fleetCode : String)
    (hid : id ≠ "") (hfc : fleetCode ≠ "")
    (h : ∀ r ∈ db, r.id = id → r.fleet_code ≠ fleetCode) :
    (deleteRoute db id fleetCode none).1 = db ∧
      (deleteRoute db id fleetCode none).2 =
        (deleteRoute (db.filter (fun r => !(r.id == id))) id fleetCode none).2 := by
  constructor
  · simp only [deleteRoute, if_neg hid, if_neg hfc]
    apply List.filter_eq_self.mpr
    intro r hr
    simp only [Bool.not_eq_true', Bool.and_eq_false_iff, beq_eq_false_iff_ne, ne_eq]
    by_cases hrid : r.id = id
    · exact Or.inr (h r hr hrid)
    · exact Or.inl hrid
  · simp only [deleteRoute, if_neg hid, if_neg hfc]

/-- Witness for C3: fleet `B` deleting fleet `A`'s record `r1`. -/
theorem claim_C3_witness :
    (("r1" : String) ≠ "" ∧ ("B" : String) ≠ "" ∧
      (∀ r ∈ c3db, r.id = "r1" → r.fleet_code ≠ "B")) ∧
    ((deleteRoute c3db "r1" "B" none).1 = c3db ∧
      (deleteRoute c3db "r1" "B" none).2 =
        (deleteRoute (c3db.filter (fun r => !(r.id == "r1"))) "r1" "B" none).2) :=
  ⟨⟨by decide, by decide, by decide⟩,
    claim_C3_delete_cross_tenant c3db "r1" "B" (by decide) (by decide) (by decide)⟩

/-! ## Field validation (C5, C8, C9) -/

/-- C5 (amended): `POST`/`PUT` requests passing the preceding checks are
rejected with the amount validation error exactly when `Number(amount)`
is a number ≤ 0 — plain JS coercion, in which `,` is NOT a decimal
separator: `amount = 0` is rejected, while a comma-decimal string
coerces to `NaN` and passes the check unconverted (see counterexample). -/
theorem claim_C5_amount_check (b : PostBody) (b2 : PutBody)
    (dbErr dbErr2 : Option String)
    (hfc : jsFalsy b.fleetCode = false) (hdate : isValidDate b.date = true)
    (htp : jsFalsy b.truckPlate = false)
    (hkm : ∃ q, numFieldValue b.km = some (some q) ∧ 0 ≤ q)
    (hcat : categoryOk b.category = true)
    (hid2 : jsFalsy b2.id = false) (hfc2 : jsFalsy b2.fleetCode = false)
    (hdate2 : isValidDate b2.date = true) (htp2 : jsFalsy b2.truckPlate = false)
    (hkm2 : ∃ q, numFieldValue b2.km = some (some q) ∧ 0 ≤ q)
    (hcat2 : categoryOk b2.category = true) :
    (postRoute b dbErr = errorResponse "amount deve ser maior que zero" ↔
      amountRejected b.amount = true) ∧
    (putRoute b2 dbErr2 = errorResponse "amount deve ser maior que zero" ↔
      amountRejected b2.amount = true) := by
  constructor
  · obtain ⟨q, hq, hq0⟩ := hkm
    have hqneg : ¬ (q < 0) := not_lt.mpr hq0
    simp only [postRoute, hfc, hdate, htp, hq, hcat, hqneg, Bool.not_true,
      Bool.false_eq_true, if_false, if_true, ite_false, ite_true]
    constructor
    · intro h
      by_contra hno
      rw [Bool.not_eq_true] at hno
      rw [hno] at h
      simp only [Bool.false_eq_true, if_false] at h
      repeat' split at h
      all_goals simp [errorResponse] at h
    · intro h
      rw [h]
      simp
  · obtain ⟨q, hq, hq0⟩ := hkm2
    have hqneg : ¬ (q < 0) := not_lt.mpr hq0
    simp only [putRoute, hid2, hfc2, hdate2, htp2, hq, hcat2, hqneg, Bool.not_true,
      Bool.false_eq_true, if_false, if_true, ite_false, ite_true]
    constructor
    · intro h
      by_contra hno
      rw [Bool.not_eq_true] at hno
      rw [hno] at h
      simp only [Bool.false_eq_true, if_false] at h
      repeat' split at h
      all_goals simp [errorResponse] at h
    · intro h
      rw [h]
      simp

/-- Witness for C5 at `amount = 0` (rejected on both `POST` and `PUT`). -/
theorem claim_C5_witness :
    (jsFalsy w5.fleetCode = false ∧ isValidDate w5.date = true ∧
      jsFalsy w5.truckPlate = false ∧
      (∃ q, numFieldValue w5.km = some (some q) ∧ 0 ≤ q) ∧
      categoryOk w5.category = true ∧
      jsFalsy w5p.id = false ∧ jsFalsy w5p.fleetCode = false ∧
      isValidDate w5p.date = true ∧ jsFalsy w5p.truckPlate = false ∧
      (∃ q, numFieldValue w5p.km = some (some q) ∧ 0 ≤ q) ∧
      categoryOk w5p.category = true) ∧
    ((postRoute w5 none = errorResponse "amount deve ser maior que zero" ↔
        amountRejected w5.amount = true) ∧
      (putRoute w5p none = errorResponse "amount deve ser maior que zero" ↔
        amountRejected w5p.amount = true)) :=
  ⟨⟨by decide, by decide, by decide, ⟨50, by decide, by decide⟩, by decide,
    by decide, by decide, by decide, by decide, ⟨50, by decide, by decide⟩,
    by decide⟩,
    claim_C5_amount_check w5 w5p none none (by decide) (by decide) (by decide)
      ⟨50, by decide, by decide⟩ (by decide) (by decide) (by decide) (by decide)
      (by decide) ⟨50, by decide, by decide⟩ (by decide)⟩

/-- C8 (amended): a `POST` with a non-fuel category and a liters value
that is absent or coerces to a positive number succeeds, and the stored
`liters` is absent; an invalid liters value is rejected even for
non-fuel categories (see counterexample). -/
theorem claim_C8_liters_discarded (b : PostBody)
    (hfc : jsFalsy b.fleetCode = false) (hdate : isValidDate b.date = true)
    (htp : jsFalsy b.truckPlate = false)
    (hkm : ∃ q, numFieldValue b.km = some (some q) ∧ 0 ≤ q)
    (hmcat : b.category = .str "maintenance")
    (hamt : amountRejected b.amount = false)
    (hl : numFieldValue b.liters = none ∨
      ∃ ql, numFieldValue b.liters = some (some ql) ∧ 0 < ql) :
    ∃ p, postRoute b none = ⟨201, .inserted p, true⟩ ∧ p.liters = none := by
  obtain ⟨q, hq, hq0⟩ := hkm
  have hcat : categoryOk b.category = true := by rw [hmcat]; decide
  simp only [postRoute, hfc, hdate, htp, hq, hcat, hamt, not_lt.mpr hq0,
    Bool.not_true, Bool.false_eq_true, if_false, ite_false]
  rcases hl with hl | ⟨ql, hql, hql0⟩
  · simp only [hl]
    exact ⟨_, rfl, rfl⟩
  · simp only [hql]
    rw [if_neg (not_le.mpr hql0)]
    refine ⟨_, rfl, ?_⟩
    simp [hmcat]

/-- Witness for C8: a maintenance record supplying `liters = 5` is
created with `liters` stored as absent. -/
theorem claim_C8_witness :
    (jsFalsy w8.fleetCode = false ∧ isValidDate w8.date = true ∧
      jsFalsy w8.truckPlate = false ∧
      (∃ q, numFieldValue w8.km = some (some q) ∧ 0 ≤ q) ∧
      w8.category = .str "maintenance" ∧ amountRejected w8.amount = false ∧
      (numFieldValue w8.liters = none ∨
        ∃ ql, numFieldValue w8.liters = some (some ql) ∧ 0 < ql)) ∧
    (∃ p, postRoute w8 none = ⟨201, .inserted p, true⟩ ∧ p.liters = none) :=
  ⟨⟨by decide, by decide, by decide, ⟨50, by decide, by decide⟩, by decide,
    by decide, Or.inr ⟨5, by decide, by decide⟩⟩,
    claim_C8_liters_discarded w8 (by decide) (by decide) (by decide)
      ⟨50, by decide, by decide⟩ (by decide) (by decide)
      (Or.inr ⟨5, by decide, by decide⟩)⟩

/-- C9 (amended): `POST`/`PUT` requests passing the preceding checks are
rejected with the km validation error exactly when `km` does NOT coerce
to a finite number ≥ 0 — and an absent (or empty-string) `km` falls in
the rejected class: `km` is required at the API level, the
default-to-0 exists only in the database schema (see counterexample). -/
theorem claim_C9_km_check (b : PostBody) (b2 : PutBody)
    (dbErr dbErr2 : Option String)
    (hfc : jsFalsy b.fleetCode = false) (hdate : isValidDate b.date = true)
    (htp : jsFalsy b.truckPlate = false)
    (hid2 : jsFalsy b2.id = false) (hfc2 : jsFalsy b2.fleetCode = false)
    (hdate2 : isValidDate b2.date = true) (htp2 : jsFalsy b2.truckPlate = false) :
    (postRoute b dbErr = errorResponse "km deve ser um número maior ou igual a zero" ↔
      ¬ ∃ q, numFieldValue b.km = some (some q) ∧ 0 ≤ q) ∧
    (putRoute b2 dbErr2 = errorResponse "km deve ser um número maior ou igual a zero" ↔
      ¬ ∃ q, numFieldValue b2.km = some (some q) ∧ 0 ≤ q) := by
  constructor
  · simp only [postRoute, hfc, hdate, htp, Bool.not_true, Bool.false_eq_true,
      if_false, ite_false, ite_true]
    constructor
    · intro h hex
      obtain ⟨q, hq, hq0⟩ := hex
      simp only [hq] at h
      rw [if_neg (not_lt.mpr hq0)] at h
      repeat' split at h
      all_goals simp [errorResponse] at h
    · intro hno
      cases hkm : numFieldValue b.km with
      | none => simp [hkm]
      | some o =>
        cases o with
        | none => simp [hkm]
        | some q =>
          have hlt : q < 0 := by
            by_contra hge
            exact hno ⟨q, hkm, not_lt.mp hge⟩
          simp [hkm, hlt]
  · simp only [putRoute, hid2, hfc2, hdate2, htp2, Bool.not_true, Bool.false_eq_true,
      if_false, ite_false, ite_true]
    constructor
    · intro h hex
      obtain ⟨q, hq, hq0⟩ := hex
      simp only [hq] at h
      rw [if_neg (not_lt.mpr hq0)] at h
      repeat' split at h
      all_goals simp [errorResponse] at h
    · intro hno
      cases hkm : numFieldValue b2.km with
      | none => simp [hkm]
      | some o =>
        cases o with
        | none => simp [hkm]
        | some q =>
          have hlt : q < 0 := by
            by_contra hge
            exact hno ⟨q, hkm, not_lt.mp hge⟩
          simp [hkm, hlt]

/-- Witness for C9 at `km = -3` (rejected on both `POST` and `PUT`). -/
theorem claim_C9_witness :
    (jsFalsy w9.fleetCode = false ∧ isValidDate w9.date = true ∧
      jsFalsy w9.truckPlate = false ∧
      jsFalsy w9p.id = false ∧ jsFalsy w9p.fleetCode = false ∧
      isValidDate w9p.date = true ∧ jsFalsy w9p.truckPlate = false) ∧
    ((postRoute w9 none = errorResponse "km deve ser um número maior ou igual a zero" ↔
        ¬ ∃ q, numFieldValue w9.km = some (some q) ∧ 0 ≤ q) ∧
      (putRoute w9p none = errorResponse "km deve ser um número maior ou igual a zero" ↔
        ¬ ∃ q, numFieldValue w9p.km = some (some q) ∧ 0 ≤ q)) :=
  ⟨⟨by decide, by decide, by decide, by decide, by decide, by decide, by decide⟩,
    claim_C9_km_check w9 w9p none none (by decide) (by decide) (by decide)
      (by decide) (by decide) (by decide) (by decide)⟩

/-! ## Month-filter error behaviour (C7) -/

/-- C7 (amended): the aggregation-revision `GET` rejects an invalid
`month` filter with the validation error "month inválido. Use YYYY-MM";
the current `route.ts` `GET` never returns that validation error — an
invalid month filter there is silently dropped (see counterexample). -/
theorem claim_C7_month_validation :
    (∀ (db : List Rec) (fleetCode : String) (group truck : Option String)
        (ms : String) (dbErr : Option String),
      fleetCode ≠ "" → group ≠ some "month" → ms ≠ "" →
      normalizeMonthRange ms = none →
      oldGet db (some fleetCode) group truck (some ms) dbErr =
        errorResponse "month inválido. Use YYYY-MM") ∧
    (∀ (db : List Rec) (fleetCode month mode : Option String)
        (dbErr : Option String),
      routeGet db fleetCode month mode dbErr ≠
        errorResponse "month inválido. Use YYYY-MM") := by
  constructor
  · intro db fleetCode group truck ms dbErr hfc hgroup hms hbad
    have h1 : paramFalsy (some fleetCode) = false := by simp [paramFalsy, hfc]
    simp only [oldGet, h1, Bool.false_eq_true, if_false, if_neg hgroup, hms, hbad,
      ite_false]
  · intro db fleetCode month mode dbErr h
    simp only [routeGet] at h
    repeat' split at h
    all_goals simp [errorResponse] at h

/-! ## Schema disclosure on every response (C10) -/

/-- C10: every JSON response of the expenses endpoint — from both `GET`
revisions, `POST`, `PUT` and `DELETE`, on success as well as on every
validation or storage error — carries the `sqlSetup` field with the SQL
setup script. -/
theorem claim_C10_sqlSetup_everywhere :
    (∀ (db : List Rec) (fleetCode month mode dbErr : Option String),
      (routeGet db fleetCode month mode dbErr).sqlSetup = true) ∧
    (∀ (db : List Rec) (fleetCode group truck month dbErr : Option String),
      (oldGet db fleetCode group truck month dbErr).sqlSetup = true) ∧
    (∀ (b : PostBody) (dbErr : Option String),
      (postRoute b dbErr).sqlSetup = true) ∧
    (∀ (b : PutBody) (dbErr : Option String),
      (putRoute b dbErr).sqlSetup = true) ∧
    (∀ (db : List Rec) (id fleetCode : String) (dbErr : Option String),
      ((deleteRoute db id fleetCode dbErr).2).sqlSetup = true) := by
  refine ⟨?_, ?_, ?_, ?_, ?_⟩
  · intro db fleetCode month mode dbErr
    simp only [routeGet]
    repeat' split <;> try rfl
  · intro db fleetCode group truck month dbErr
    simp only [oldGet]
    repeat' split <;> try rfl
  · intro b dbErr
    rw [postRoute]
    repeat' split <;> try rfl
  · intro b dbErr
    rw [putRoute]
    repeat' split <;> try rfl
  · intro db id fleetCode dbErr
    simp only [deleteRoute]
    repeat' split <;> try rfl

/-! ## Concrete evaluations

The remaining witnesses and counterexamples evaluate the handlers and
the `Number()` coercion on concrete inputs; the arithmetic of `Rat` is
made kernel-reducible locally for that. -/

section ConcreteEvaluations

attribute [local semireducible] Rat.add Rat.mul Rat.inv Rat.sub

/-- C5, counterexample: the comma-decimal amount `"-10,5"` coerces (per
the spec's comma-accepting rule) to `-10.5 ≤ 0`, so the claim demands a
rejection; but `Number("-10,5")` is `NaN`, the check `NaN <= 0` is
false, and the `POST` succeeds with status 201, the raw string stored as
the amount. -/
theorem claim_C5_counterexample :
    specNumericCoerce "-10,5" = some (-(21 / 2) : Rat) ∧
    (-(21 / 2) : Rat) ≤ 0 ∧
    jsToNumber (JsVal.str "-10,5") = none ∧
    (postRoute cex5 none).status = 201 ∧
    (postRoute cex5 none).body = .inserted
      { fleet_code := .str "F1", date := .str "2024-05-10",
        truck_plate := .str "AAA-111", km := 50,
        category := .str "maintenance", amount := .str "-10,5",
        liters := none, invoice_number := none, note := none } := by
  refine ⟨by decide, by decide, by decide, by decide, by decide⟩

/-- Witness for C6 at the valid input `"2024-05"`. -/
theorem claim_C6_witness :
    (((jsSplitDash "2024-05").map jsStrToNumber).get? 0 = some (some 2024) ∧
      ((jsSplitDash "2024-05").map jsStrToNumber).get? 1 = some (some 5) ∧
      (2024 : Rat) ≠ 0 ∧ (1 : Rat) ≤ 5 ∧ (5 : Rat) ≤ 12) ∧
    (∃ st en, normalizeMonthRange "2024-05" = some (st, en) ∧
      st.day = 1 ∧ en.day = 1 ∧ (monthKey en).midx = (monthKey st).midx + 1) :=
  ⟨⟨by decide, by decide, by decide, by decide, by decide⟩,
    claim_C6_month_range "2024-05" 2024 5 (by decide) (by decide) (by decide)
      (by decide) (by decide)⟩

/-- Witness for C7 at the invalid month `"2024-13"`. -/
theorem claim_C7_witness :
    (("F1" : String) ≠ "" ∧ (none : Option String) ≠ some "month" ∧
      ("2024-13" : String) ≠ "" ∧ normalizeMonthRange "2024-13" = none) ∧
    oldGet [] (some "F1") none none (some "2024-13") none =
      errorResponse "month inválido. Use YYYY-MM" ∧
    routeGet [] (some "F1") (some "2024-13") (some "MONTH") none ≠
      errorResponse "month inválido. Use YYYY-MM" :=
  ⟨⟨by decide, by decide, by decide, by decide⟩,
    claim_C7_month_validation.1 [] "F1" none none "2024-13" none
      (by decide) (by decide) (by decide) (by decide),
    claim_C7_month_validation.2 [] (some "F1") (some "2024-13") (some "MONTH") none⟩

/-- C7, counterexample: in the current `route.ts`, a `GET` carrying the
invalid month `2024-13` (even with `mode=MONTH`) is answered with a 200
data response, not a validation error — the filter is silently dropped. -/
theorem claim_C7_counterexample :
    normalizeMonthRange "2024-13" = none ∧
    routeGet [] (some "F1") (some "2024-13") (some "MONTH") none =
      ⟨200, .rows [] none, true⟩ := by
  refine ⟨by decide, by decide⟩

/-- C8, counterexample: a maintenance record with `liters = -1` is
rejected with the liters validation error — the supplied liters is not
always silently discarded for non-fuel categories. -/
theorem claim_C8_counterexample :
    cex8.category = .str "maintenance" ∧
    postRoute cex8 none = errorResponse "liters deve ser maior que zero" := by
  refine ⟨by decide, by decide⟩

/-- C9, counterexample: a request with `km` absent (all other fields
valid) is rejected with the km validation error, not accepted with a
default of 0. -/
theorem claim_C9_counterexample :
    cex9.km = .undefined ∧
    postRoute cex9 none = errorResponse "km deve ser um número maior ou igual a zero" := by
  refine ⟨by decide, by decide⟩

end ConcreteEvaluations

end Frota
